import Mathlib

/-!
Verification of the publication-aggregation pipeline in
`scripts/fetch_scholar.py`, `scripts/fetch_scholar_ORCID.py` and
`scripts/fetch_scholar_semanticscholar.py`.

Python dictionaries holding publication records are modelled as association
lists from field names to a small value type `Val` (string, integer, or the
Python `None`); Python truthiness, `dict.get`, `or`-chains and in-place
assignment are modelled explicitly.  Python string primitives
(`strip`, `lower`, `<=`, slicing) are modelled as structurally recursive
functions on the character list of a `String`, so that every definition
evaluates inside the kernel.  Python's stable `list.sort(key=..., reverse=True)`
is modelled by Mathlib's stable `List.insertionSort` with the reversed
(descending) key comparison: a stable sort with respect to a total preorder
has a uniquely determined output, so any stable sort models CPython's Timsort
exactly.
-/

namespace Scholar

/-- A Python value as it occurs in the record dictionaries of the scripts:
a string, an integer, or `None`. -/
inductive Val where
  | vstr (s : String)
  | vint (n : Int)
  | vnone
deriving DecidableEq

/-- A Python dict (field name to value), as an association list in insertion
order.  All dictionaries built by the scripts have pairwise distinct keys. -/
abbrev Dict := List (String × Val)

/-- Python truthiness: `""`, `0` and `None` are falsy. -/
def truthy : Val → Bool
  | .vstr s => !(s == "")
  | .vint n => !(n == 0)
  | .vnone => false

/-- Python `d.get(k)`: the value of the first (in our dicts: only) entry at
`k`, or `None` when absent. -/
def dget (d : Dict) (k : String) : Val :=
  match d with
  | [] => .vnone
  | p :: rest => if p.1 == k then p.2 else dget rest k

/-- Python `d.get(k, default)`. -/
def dgetD (d : Dict) (k : String) (v : Val) : Val :=
  match d with
  | [] => v
  | p :: rest => if p.1 == k then p.2 else dgetD rest k v

/-- Python `d[k] = v`: replace the (unique) entry in place when the key
exists, append it at the end otherwise. -/
def dset (d : Dict) (k : String) (v : Val) : Dict :=
  match d with
  | [] => [(k, v)]
  | p :: rest => if p.1 == k then (k, v) :: rest else p :: dset rest k v

/-- Python `a or b` on record values: `a` when truthy, else `b`. -/
def pyOr (a b : Val) : Val :=
  if truthy a then a else b

/-- Python `str(v)`. -/
def pyStr : Val → String
  | .vstr s => s
  | .vint n => toString n
  | .vnone => "None"

/-- The scripts' idiom `(v or "")` read as a string: the value when truthy,
the empty string otherwise.  (In the scripts the truthy case is always
already a string.) -/
def asStr (v : Val) : String :=
  pyStr (pyOr v (.vstr ""))

/-- Characters of `str.strip()`: drop whitespace at both ends. -/
def trimChars (cs : List Char) : List Char :=
  ((cs.dropWhile Char.isWhitespace).reverse.dropWhile Char.isWhitespace).reverse

/-- Python `s.strip()`. -/
def pyTrim (s : String) : String :=
  ⟨trimChars s.data⟩

/-- Python `s.lower()` (ASCII case folding, which covers every string the
scripts compare). -/
def pyLower (s : String) : String :=
  ⟨s.data.map Char.toLower⟩

/-- Split a character list into maximal whitespace-free words; `cur` holds
the (reversed) word being read. -/
def wordsLoop (cur : List Char) : List Char → List (List Char)
  | [] => if cur.isEmpty then [] else [cur.reverse]
  | c :: cs =>
    if c.isWhitespace then
      if cur.isEmpty then wordsLoop [] cs else cur.reverse :: wordsLoop [] cs
    else wordsLoop (c :: cur) cs

/-- Join words with single spaces. -/
def joinSpace : List (List Char) → List Char
  | [] => []
  | [w] => w
  | w :: rest => w ++ ' ' :: joinSpace rest

/-- `norm_ws` (fetch_scholar.py line 41): `re.sub(r"\s+", " ", s.strip())` —
trim, then collapse each internal whitespace run to a single space. -/
def norm_ws (s : String) : String :=
  ⟨joinSpace (wordsLoop [] s.data)⟩

/-- `0`-`9` digit test used for Python `int(...)` and `str.isdigit()` on the
year strings of the scripts. -/
def isDigitChar (c : Char) : Bool :=
  c.isDigit

/-- Digits of a nonempty all-digit character list, else `none`. -/
def parseDigits (cs : List Char) : Option Nat :=
  if !cs.isEmpty && cs.all isDigitChar then
    some (cs.foldl (fun acc c => acc * 10 + (c.toNat - 48)) 0)
  else
    none

/-- Python `int(s)` on a string: strip, optional sign, then one or more
digits; anything else raises, modelled as `none`.  (CPython additionally
accepts grouping underscores between digits and non-ASCII decimal digits;
neither occurs in the year data these scripts parse.) -/
def parseIntStr (s : String) : Option Int :=
  match trimChars s.data with
  | [] => none
  | c :: rest =>
    if c = '-' then (parseDigits rest).map (fun n => -(Int.ofNat n))
    else if c = '+' then (parseDigits rest).map Int.ofNat
    else (parseDigits (c :: rest)).map Int.ofNat

/-- `safe_int` (fetch_scholar.py line 44): `int(str(x).strip())` with the
default `0` returned on any parse failure — it never raises. -/
def safe_int (x : Val) : Int :=
  match parseIntStr (pyStr x) with
  | some n => n
  | none => 0

/-- Python `s1 <= s2` on strings: lexicographic on code points. -/
def charsLe : List Char → List Char → Bool
  | [], _ => true
  | _ :: _, [] => false
  | a :: as, b :: bs =>
    if a.toNat < b.toNat then true
    else if a.toNat = b.toNat then charsLe as bs
    else false

/-- Python `s1 <= s2` on `String`. -/
def strLe (s t : String) : Bool :=
  charsLe s.data t.data

/-- The normalized DOI used as a dedupe key (fetch_scholar.py line 55):
`(it.get("doi") or "").lower().strip()`. -/
def doiNorm (it : Dict) : String :=
  pyTrim (pyLower (asStr (dget it "doi")))

/-- The title/year fallback dedupe key (fetch_scholar.py line 56):
`(norm_ws(it.get("title") or "").lower(), str(it.get("year") or ""))`. -/
def tyNormKey (it : Dict) : String × String :=
  (pyLower (norm_ws (asStr (dget it "title"))), asStr (dget it "year"))

/-- The tagged dedupe key `("doi", doi)` / `("ty", (title, year))` of
fetch_scholar.py line 56. -/
inductive DKey where
  | doiK (d : String)
  | tyK (t : String) (y : String)
deriving DecidableEq

/-- `key = ("doi", doi) if doi else ("ty", ...)` (fetch_scholar.py line 56). -/
def dkey (it : Dict) : DKey :=
  if doiNorm it ≠ "" then .doiK (doiNorm it)
  else .tyK (tyNormKey it).1 (tyNormKey it).2

/-- The dedupe loop of `dedupe_sort` (fetch_scholar.py lines 52-60): walk the
input keeping the first record for each key, where `seen` accumulates keys. -/
def dedupeLoop (seen : List DKey) : List Dict → List Dict
  | [] => []
  | it :: rest =>
    let k := dkey it
    if k ∈ seen then dedupeLoop seen rest
    else it :: dedupeLoop (k :: seen) rest

/-- The sort key of fetch_scholar.py line 61:
`(safe_int(r.get("year")), (r.get("title") or "").lower())`. -/
def sortKey (r : Dict) : Int × String :=
  (safe_int (dget r "year"), pyLower (asStr (dget r "title")))

/-- Lexicographic `≤` on the Python tuple key `(int, str)`. -/
def keyLeB (k1 k2 : Int × String) : Bool :=
  if k1.1 < k2.1 then true
  else if k1.1 = k2.1 then strLe k1.2 k2.2
  else false

/-- The comparison realised by `sort(key=..., reverse=True)` (fetch_scholar.py
line 61): `r1` may precede `r2` iff `sortKey r2 ≤ sortKey r1` lexicographically
(descending order; ties keep input order because the sort is stable). -/
def sortGE (r1 r2 : Dict) : Prop :=
  keyLeB (sortKey r2) (sortKey r1) = true

instance : DecidableRel sortGE := fun r1 r2 =>
  inferInstanceAs (Decidable (keyLeB (sortKey r2) (sortKey r1) = true))

/-- `dedupe_sort` (fetch_scholar.py lines 50-62): dedupe by DOI (or
title+year), then stable-sort newest-first. -/
def dedupe_sort (items : List Dict) : List Dict :=
  List.insertionSort sortGE (dedupeLoop [] items)

/-- `it.pop("doi", None)` in `write_output` (fetch_scholar.py line 67):
remove the (unique) `doi` entry when present. -/
def popDoi : Dict → Dict
  | [] => []
  | p :: rest => if p.1 == "doi" then rest else p :: popDoi rest

/-- `write_output` (fetch_scholar.py lines 64-69) as the list of records
serialized into the artifact: dedupe-and-sort, then drop the internal
`doi` key from each record. -/
def write_output (items : List Dict) : List Dict :=
  (dedupe_sort items).map popDoi

/-- `if not oa: ...` on an optional dict: `None` and the empty dict are
falsy. -/
def optTruthy : Option Dict → Bool
  | none => false
  | some d => !d.isEmpty

/-- `oa or {}` (fetch_scholar.py line 296). -/
def orEmptyDict (o : Option Dict) : Dict :=
  match o with
  | some d => if !d.isEmpty then d else []
  | none => []

/-- The merged dict literal of fetch_scholar.py lines 298-311, built from the
OpenAlex dict `a` and the Crossref dict `b`. -/
def mergeBuild (a b : Dict) : Dict :=
  let year := pyOr (dget a "year") (pyOr (dget b "year") (.vstr ""))
  [("title", pyOr (dget a "title") (pyOr (dget b "title") (.vstr ""))),
   ("authors", pyOr (dget a "authors") (pyOr (dget b "authors") (.vstr ""))),
   ("year", year),
   ("venue", pyOr (dget a "venue") (pyOr (dget b "venue") (.vstr ""))),
   ("url", pyOr (dget a "url") (pyOr (dget b "url") (.vstr ""))),
   ("eprint_url", pyOr (dget a "eprint_url") (pyOr (dget b "eprint_url") (.vstr ""))),
   ("cited_by", .vint (max (safe_int (dget a "cited_by")) (safe_int (dget b "cited_by")))),
   ("source", pyOr (dget a "source") (pyOr (dget b "source") (.vstr ""))),
   ("doi", pyOr (dget a "doi") (pyOr (dget b "doi") (.vstr "")))]

/-- `merge_records` (fetch_scholar.py lines 289-312): prefer OpenAlex field
values, fill gaps from Crossref; `cited_by` is the maximum of the two counts. -/
def merge_records (oa cr : Option Dict) : Option Dict :=
  if !optTruthy oa && !optTruthy cr then none
  else some (mergeBuild (orEmptyDict oa) (orEmptyDict cr))

/-- The fields of the parsed Europe PMC search hit that `enrich_epmc` reads
(fetch_scholar.py lines 259-285); `fullTextUrl` is the list of url dicts of
`rec["fullTextUrlList"]["fullTextUrl"]`. -/
structure EpmcRec where
  authorString : Val
  journalTitle : Val
  bookOrReportDetails : Val
  epubDate : Val
  firstPublicationDate : Val
  pubYear : Val
  pmcid : Val
  fullTextUrl : List Dict
deriving DecidableEq

/-- The year gap-fill of fetch_scholar.py lines 267-273, reached when
`item["year"]` is falsy. -/
def yearFill (item : Dict) (er : EpmcRec) : Dict :=
  match pyOr er.epubDate (pyOr er.firstPublicationDate (.vstr "")) with
  | .vstr s =>
    if s.data.length ≥ 4 && (s.data.take 4).all isDigitChar then
      dset item "year" (.vstr ⟨s.data.take 4⟩)
    else if truthy er.pubYear then dset item "year" (.vstr (pyStr er.pubYear))
    else item
  | _ =>
    if truthy er.pubYear then dset item "year" (.vstr (pyStr er.pubYear))
    else item

/-- The open-access link gap-fill of fetch_scholar.py lines 275-285, reached
when `item["eprint_url"]` is falsy. -/
def eprintFill (item : Dict) (er : EpmcRec) : Dict :=
  if truthy er.pmcid then
    dset item "eprint_url" (.vstr ("https://europepmc.org/article/pmc/" ++ pyStr er.pmcid))
  else
    match er.fullTextUrl.find? (fun u => truthy (dget u "url")) with
    | some u => dset item "eprint_url" (dget u "url")
    | none => item

/-- The authors gap-fill of fetch_scholar.py lines 260-261, guarded by the
falsiness of the current `authors` value. -/
def enrichAuthors (item : Dict) (er : EpmcRec) : Dict :=
  if !truthy (dget item "authors") && truthy er.authorString then
    dset item "authors" er.authorString
  else item

/-- The venue gap-fill of fetch_scholar.py lines 264-265. -/
def enrichVenue (item : Dict) (er : EpmcRec) : Dict :=
  if !truthy (dget item "venue") &&
     truthy (pyOr er.journalTitle er.bookOrReportDetails) then
    dset item "venue" (pyOr er.journalTitle er.bookOrReportDetails)
  else item

/-- The year gap-fill guard of fetch_scholar.py line 268. -/
def enrichYear (item : Dict) (er : EpmcRec) : Dict :=
  if !truthy (dget item "year") then yearFill item er else item

/-- The open-access link gap-fill guard of fetch_scholar.py line 276. -/
def enrichEprint (item : Dict) (er : EpmcRec) : Dict :=
  if !truthy (dget item "eprint_url") then eprintFill item er else item

/-- `enrich_epmc` (fetch_scholar.py lines 235-285).  The HTTP search is
abstracted into the optional hit `er?` (`none` models a missing DOI query
result, a request failure, or an empty result list, in which case the item is
returned unchanged); the four in-place gap-fill assignments run in source
order, each guarded by the falsiness of the current field value. -/
def enrich_epmc (item : Dict) (er? : Option EpmcRec) : Dict :=
  if !truthy (dget item "doi") then item
  else
    match er? with
    | none => item
    | some er => enrichEprint (enrichYear (enrichVenue (enrichAuthors item er) er) er) er

/-- The per-DOI loop of `main` (fetch_scholar.py lines 320-348): each DOI
yields an optional OpenAlex record, an optional Crossref record and an
optional Europe PMC hit; merge, skip when empty, enrich, collect, and write
the artifact. -/
def runPipeline (fetched : List (Option Dict × Option Dict × Option EpmcRec)) : List Dict :=
  write_output (fetched.filterMap (fun t => (merge_records t.1 t.2.1).map (fun m => enrich_epmc m t.2.2)))

/-- Minimal JSON string escaping (quote and backslash; the scripts' data
contains no control characters). -/
def jsonEscape (s : String) : String :=
  ⟨s.data.foldr (fun c acc =>
      if c = '\\' then '\\' :: '\\' :: acc
      else if c = '"' then '\\' :: '"' :: acc
      else c :: acc) []⟩

/-- Rendering of one value as in `json.dumps(..., ensure_ascii=False)`. -/
def renderVal : Val → String
  | .vstr s => "\"" ++ jsonEscape s ++ "\""
  | .vint n => toString n
  | .vnone => "null"

/-- Rendering of one record object at `indent=2` (two-space outer indent). -/
def renderObj (d : Dict) : String :=
  if d.isEmpty then "\x7b\x7d"
  else
    "\x7b\n    " ++
      String.intercalate ",\n    "
        (d.map (fun p => "\"" ++ jsonEscape p.1 ++ "\": " ++ renderVal p.2)) ++
      "\n  \x7d"

/-- `json.dumps(items, indent=2, ensure_ascii=False)` on the record list:
an empty list renders as `[]`. -/
def renderJson (items : List Dict) : String :=
  if items.isEmpty then "[]"
  else "[\n  " ++ String.intercalate ",\n  " (items.map renderObj) ++ "\n]"

/-- The `__main__` guard of fetch_scholar.py lines 352-362: run `main`; on any
escaping exception fall back to `write_output([])`; either way exit with
status 0.  The outcome of `main`'s fetching work is abstracted as either the
collected record list or an escaping exception; the result is the artifact
text written and the process exit status. -/
def topLevel (mainResult : Except Unit (List Dict)) : String × Nat :=
  match mainResult with
  | .ok items => (renderJson (write_output items), 0)
  | .error _ => (renderJson (write_output []), 0)

/-- The fields of one Semantic Scholar paper that
`fetch_papers_for_author` reads (fetch_scholar_semanticscholar.py lines
159-179); `authors` is the list of author dicts (keys `authorId`, `name`),
`openAccessPdf` is the optional pdf dict. -/
structure S2Paper where
  title : Val
  venue : Val
  year : Val
  url : Val
  citationCount : Val
  openAccessPdf : Option Dict
  authors : List Dict
deriving DecidableEq

/-- `(p.get("openAccessPdf") or {})` for an optional dict. -/
def orEmptyS2 (o : Option Dict) : Dict :=
  match o with
  | some d => if !d.isEmpty then d else []
  | none => []

/-- The strict identity filter of fetch_scholar_semanticscholar.py line 162:
keep a paper only when the target `author_id` is among the truthy
`authorId`s of its author list. -/
def keepPaper (author_id : String) (p : S2Paper) : Bool :=
  p.authors.any (fun a => truthy (dget a "authorId") && decide (dget a "authorId" = .vstr author_id))

/-- The item dict built for a kept paper
(fetch_scholar_semanticscholar.py lines 164-179). -/
def mkS2Item (p : S2Paper) : Dict :=
  let url_pref := pyOr (dget (orEmptyS2 p.openAccessPdf) "url") (pyOr p.url (.vstr ""))
  let author_names :=
    String.intercalate ", "
      ((p.authors.filter (fun a => truthy (dgetD a "name" (.vstr "")))).map
        (fun a => pyStr (dgetD a "name" (.vstr ""))))
  [("title", pyOr p.title (.vstr "")),
   ("authors", .vstr author_names),
   ("year", pyOr p.year (.vstr "")),
   ("venue", pyOr p.venue (.vstr "")),
   ("url", url_pref),
   ("eprint_url", pyOr (dget (orEmptyS2 p.openAccessPdf) "url") (.vstr "")),
   ("cited_by", .vint (safe_int (pyOr p.citationCount (.vint 0)))),
   ("source", .vstr "semantic_scholar")]

/-- The paper loop of `fetch_papers_for_author`
(fetch_scholar_semanticscholar.py lines 152-182): the papers not passing the
identity filter are skipped (`continue`), the kept ones are appended in
order. -/
def fetch_papers_for_author (author_id : String) (papers : List S2Paper) : List Dict :=
  papers.filterMap (fun p => if keepPaper author_id p then some (mkS2Item p) else none)

/-- The fields of one Crossref work item read by the record loop of
`fetch_crossref_by_orcid` (fetch_scholar_ORCID.py lines 92-121):
`title`/`containerTitle` are the joined string lists, `issued` the
`date-parts` nested list, `link` and `author` the dict lists. -/
structure XrefItem where
  title : List String
  containerTitle : List String
  issued : List (List Val)
  URL : Val
  DOI : Val
  isReferencedByCount : Val
  link : List Dict
  author : List Dict
deriving DecidableEq

/-- One iteration of the record loop of `fetch_crossref_by_orcid`
(fetch_scholar_ORCID.py lines 92-146).  Lines 93-121 bind the local values
below; line 125 then evaluates `(ws.get("contributors") or {})`, but `ws` is
not bound anywhere in `fetch_crossref_by_orcid` (nor is `journal_title`,
used at line 139), so in Python the iteration raises
`NameError` for the unbound name `ws` before any item is appended
(the model records the message text without quote characters).  The
uncaught exception is modelled as the `Except.error` value. -/
def buildCrossrefItem (it : XrefItem) : Except String Dict :=
  let title := pyTrim (String.intercalate " " it.title)
  let venue := pyTrim (String.intercalate " " it.containerTitle)
  let year : Val :=
    match it.issued with
    | parts :: _ => match parts with
      | y :: _ => y
      | [] => .vstr ""
    | [] => .vstr ""
  let url_pref := pyOr it.URL (.vstr "")
  let doi := pyLower (asStr it.DOI)
  let cited_by := safe_int (pyOr it.isReferencedByCount (.vint 0))
  let oa_url : String :=
    match it.link.find? (fun L =>
        decide (pyLower (pyStr (dgetD L "content-version" (.vstr ""))) = "vor") &&
        truthy (dget L "URL")) with
    | some L => pyStr (dget L "URL")
    | none => ""
  let author_names :=
    (it.author.filterMap (fun a =>
      let given := pyTrim (pyStr (dgetD a "given" (.vstr "")))
      let family := pyTrim (pyStr (dgetD a "family" (.vstr "")))
      let nm := pyStr (pyOr (.vstr (pyTrim (given ++ " " ++ family)))
        (.vstr (pyTrim (pyStr (dgetD a "name" (.vstr ""))))))
      if nm ≠ "" then some nm else none))
  let authors_str := String.intercalate ", " author_names
  -- line 124 rebinds authors_str to ""; line 125 dereferences the unbound
  -- name `ws` and raises
  .error "NameError: name ws is not defined"

/-- Processing of one Crossref response page (the `for it in recs` loop of
fetch_scholar_ORCID.py lines 92-146): items are built in order, and an
exception raised while building one item aborts the whole loop. -/
def fetch_crossref_page : List XrefItem → Except String (List Dict)
  | [] => .ok []
  | it :: rest =>
    match buildCrossrefItem it with
    | .error e => .error e
    | .ok d =>
      match fetch_crossref_page rest with
      | .error e => .error e
      | .ok ds => .ok (d :: ds)

/-- The list a `try: all_items.extend(fetch_...)` stage contributes: the
fetched list on success, nothing when the fetch raised
(fetch_scholar_ORCID.py lines 261-271). -/
def exceptItems (r : Except Unit (List Dict)) : List Dict :=
  match r with
  | .ok l => l
  | .error _ => []

/-- `main` of fetch_scholar_ORCID.py lines 254-273 up to `write_output`:
extend with the Crossref result (or nothing on failure); query the ORCID
public fallback exactly when fewer than 5 records were accumulated.  The
result pairs the accumulated list with whether the fallback source was
fetched. -/
def orcid_main (crossref orcidPub : Except Unit (List Dict)) : List Dict × Bool :=
  let all_items : List Dict := exceptItems crossref
  if all_items.length < 5 then
    (all_items ++ exceptItems orcidPub, true)
  else
    (all_items, false)

-- sanity checks of the embedding on concrete values
example : safe_int (.vstr " 2020 ") = 2020 := by decide
example : safe_int (.vstr "n/a") = 0 := by decide
example : safe_int .vnone = 0 := by decide
example : safe_int (.vint (-7)) = -7 := by decide
example : norm_ws "  a   b " = "a b" := by decide
example : dget [("x", .vint 1)] "x" = .vint 1 := by decide
example : dget [("x", .vint 1)] "y" = .vnone := by decide
example : strLe "abc" "abd" = true := by decide
example : strLe "b" "a" = false := by decide
example : doiNorm [("doi", .vstr " 10.1/A ")] = "10.1/a" := by decide
example :
    dedupe_sort [[("title", .vstr "a"), ("year", .vint 2020)],
                 [("title", .vstr "b"), ("year", .vint 2020)]] =
      [[("title", .vstr "b"), ("year", .vint 2020)],
       [("title", .vstr "a"), ("year", .vint 2020)]] := by decide
example :
    merge_records (some [("year", .vint 2020), ("cited_by", .vint 5)])
        (some [("year", .vint 2021), ("cited_by", .vint 12)]) =
      some (mergeBuild [("year", .vint 2020), ("cited_by", .vint 5)]
        [("year", .vint 2021), ("cited_by", .vint 12)]) := by decide
example : renderJson (write_output []) = "[]" := by decide

/-! ### Concrete records used by scenarios, counterexamples and witnesses -/

/-- Source A of the spec's merge scenario, shaped like a
`fetch_openalex_by_doi` result: online year 2020, 5 citations. -/
def srcA : Dict :=
  [("title", .vstr "X"), ("authors", .vstr "A. Author"), ("year", .vint 2020),
   ("venue", .vstr ""), ("url", .vstr "https://doi.org/10.1/a"),
   ("eprint_url", .vstr ""), ("cited_by", .vint 5),
   ("source", .vstr "openalex"), ("doi", .vstr "10.1/a")]

/-- Source B of the spec's merge scenario, shaped like a
`fetch_crossref_by_doi` result: print year 2021, 12 citations, same DOI. -/
def srcB : Dict :=
  [("title", .vstr "X"), ("authors", .vstr "A. Author"), ("year", .vstr "2021"),
   ("venue", .vstr "Nature"), ("url", .vstr "https://doi.org/10.1/a"),
   ("eprint_url", .vstr ""), ("cited_by", .vint 12),
   ("source", .vstr "crossref"), ("doi", .vstr "10.1/a")]

/-- The merged record of the scenario. -/
def mergedAB : Dict :=
  (merge_records (some srcA) (some srcB)).getD []

/-- An OpenAlex record for a work without `publication_year`: line 136 of
fetch_scholar.py (`w.get("publication_year") or ""`) sets `year` to `""`. -/
def oaRec0 : Dict :=
  [("title", .vstr "Sample work"), ("authors", .vstr "A. Author"),
   ("year", .vstr ""), ("venue", .vstr "Venue"),
   ("url", .vstr "https://doi.org/10.1/x"), ("eprint_url", .vstr ""),
   ("cited_by", .vint 3), ("source", .vstr "openalex"), ("doi", .vstr "10.1/x")]

/-- DOI-less record with title `"a"`, year 2020. -/
def recA2020 : Dict := [("title", .vstr "a"), ("year", .vint 2020)]

/-- DOI-less record with title `"b"`, year 2020. -/
def recB2020 : Dict := [("title", .vstr "b"), ("year", .vint 2020)]

/-- A merged record whose `year` is still empty. -/
def recNoYear : Dict :=
  [("title", .vstr "T"), ("authors", .vstr "A. Author"), ("year", .vstr ""),
   ("venue", .vstr "V"), ("url", .vstr "https://doi.org/10.1/y"),
   ("eprint_url", .vstr ""), ("cited_by", .vint 0),
   ("source", .vstr "openalex"), ("doi", .vstr "10.1/y")]

/-- A Europe PMC hit carrying an epub date (and nothing else of note). -/
def epmcR0 : EpmcRec :=
  ⟨.vstr "", .vstr "", .vstr "", .vstr "2019-05-01", .vstr "", .vstr "",
   .vstr "", []⟩

/-- A one-item Crossref page for the NameError witness. -/
def xrefItem0 : XrefItem :=
  ⟨["T"], [], [[.vint 2020]], .vstr "https://doi.org/10.1/z", .vstr "10.1/Z",
   .vint 1, [], []⟩

/-! ### Order lemmas for the sort comparison -/

theorem charsLe_total : ∀ a b : List Char, charsLe a b = true ∨ charsLe b a = true := by
  intro a
  induction a with
  | nil => intro b; left; rfl
  | cons c cs ih =>
    intro b
    cases b with
    | nil => right; rfl
    | cons d ds =>
      by_cases h1 : c.toNat < d.toNat
      · left; simp [charsLe, h1]
      · by_cases h2 : c.toNat = d.toNat
        · rcases ih ds with h3 | h3
          · left; simp [charsLe, h1, h2, h3]
          · right
            have hnd : ¬ d.toNat < c.toNat := by omega
            simp [charsLe, hnd, h2.symm, h3]
        · right
          have hd : d.toNat < c.toNat := by omega
          simp [charsLe, hd]

theorem charsLe_trans : ∀ a b c : List Char,
    charsLe a b = true → charsLe b c = true → charsLe a c = true := by
  intro a
  induction a with
  | nil => intro b c _ _; rfl
  | cons x xs ih =>
    intro b c hab hbc
    cases b with
    | nil => simp [charsLe] at hab
    | cons y ys =>
      cases c with
      | nil => simp [charsLe] at hbc
      | cons z zs =>
        simp only [charsLe] at hab hbc ⊢
        by_cases h1 : x.toNat < y.toNat
        · by_cases h2 : y.toNat < z.toNat
          · have : x.toNat < z.toNat := by omega
            simp [this]
          · by_cases h3 : y.toNat = z.toNat
            · have : x.toNat < z.toNat := by omega
              simp [this]
            · simp [h2, h3] at hbc
        · by_cases h1e : x.toNat = y.toNat
          · by_cases h2 : y.toNat < z.toNat
            · have : x.toNat < z.toNat := by omega
              simp [this]
            · by_cases h3 : y.toNat = z.toNat
              · have hxz : ¬ x.toNat < z.toNat := by omega
                have hxze : x.toNat = z.toNat := by omega
                simp only [if_neg h1, if_pos h1e] at hab
                simp only [if_neg h2, if_pos h3] at hbc
                simp only [if_neg hxz, if_pos hxze]
                exact ih ys zs hab hbc
              · simp [h2, h3] at hbc
          · simp [h1, h1e] at hab

theorem keyLeB_total : ∀ k1 k2 : Int × String, keyLeB k1 k2 = true ∨ keyLeB k2 k1 = true := by
  intro k1 k2
  by_cases h1 : k1.1 < k2.1
  · left; simp [keyLeB, h1]
  · by_cases h2 : k1.1 = k2.1
    · rcases charsLe_total k1.2.data k2.2.data with h3 | h3
      · left; simp [keyLeB, h1, h2, strLe, h3]
      · right
        have hn : ¬ k2.1 < k1.1 := by omega
        simp [keyLeB, hn, h2.symm, strLe, h3]
    · right
      have hlt : k2.1 < k1.1 := by omega
      simp [keyLeB, hlt]

theorem keyLeB_trans : ∀ k1 k2 k3 : Int × String,
    keyLeB k1 k2 = true → keyLeB k2 k3 = true → keyLeB k1 k3 = true := by
  intro k1 k2 k3 h12 h23
  simp only [keyLeB] at h12 h23 ⊢
  by_cases a1 : k1.1 < k2.1
  · by_cases a2 : k2.1 < k3.1
    · have : k1.1 < k3.1 := by omega
      simp [this]
    · by_cases a3 : k2.1 = k3.1
      · have : k1.1 < k3.1 := by omega
        simp [this]
      · simp [a2, a3] at h23
  · by_cases a1e : k1.1 = k2.1
    · by_cases a2 : k2.1 < k3.1
      · have : k1.1 < k3.1 := by omega
        simp [this]
      · by_cases a3 : k2.1 = k3.1
        · have hn : ¬ k1.1 < k3.1 := by omega
          have he : k1.1 = k3.1 := by omega
          simp only [if_neg a1, if_pos a1e] at h12
          simp only [if_neg a2, if_pos a3] at h23
          simp only [if_neg hn, if_pos he]
          exact charsLe_trans _ _ _ h12 h23
        · simp [a2, a3] at h23
    · simp [a1, a1e] at h12

instance : IsTotal Dict sortGE :=
  ⟨fun r1 r2 => by
    rcases keyLeB_total (sortKey r2) (sortKey r1) with h | h
    · exact Or.inl h
    · exact Or.inr h⟩

instance : IsTrans Dict sortGE :=
  ⟨fun r1 r2 r3 h1 h2 => keyLeB_trans _ _ _ h2 h1⟩

/-- The output of `dedupe_sort` is sorted for the descending key comparison. -/
theorem dedupe_sort_sorted (items : List Dict) :
    List.Sorted sortGE (dedupe_sort items) :=
  List.sorted_insertionSort sortGE (dedupeLoop [] items)

/-- The output of `dedupe_sort` is a permutation of the deduplicated input. -/
theorem dedupe_sort_perm (items : List Dict) :
    List.Perm (dedupe_sort items) (dedupeLoop [] items) :=
  List.perm_insertionSort sortGE (dedupeLoop [] items)

/-! ### Deduplication and dictionary lemmas -/

theorem take_one_filter_of_find {α : Type} (p : α → Bool) :
    ∀ (l : List α) (r : α), l.find? p = some r → (l.filter p).take 1 = [r] := by
  intro l
  induction l with
  | nil => intro r h; simp [List.find?] at h
  | cons a as ih =>
    intro r h
    by_cases hp : p a = true
    · rw [List.find?_cons_of_pos _ hp] at h
      obtain rfl : a = r := by injection h
      rw [List.filter_cons_of_pos hp]
      rfl
    · rw [List.find?_cons_of_neg _ hp] at h
      rw [List.filter_cons_of_neg hp]
      exact ih r h

theorem dedupeLoop_filter (k : DKey) :
    ∀ (l : List Dict) (seen : List DKey),
      (dedupeLoop seen l).filter (fun it => dkey it == k) =
        if k ∈ seen then [] else (l.filter (fun it => dkey it == k)).take 1 := by
  intro l
  induction l with
  | nil =>
    intro seen
    by_cases h : k ∈ seen <;> simp [dedupeLoop, h]
  | cons it rest ih =>
    intro seen
    simp only [dedupeLoop]
    by_cases hmem : dkey it ∈ seen
    · rw [if_pos hmem, ih seen]
      by_cases hks : k ∈ seen
      · simp [hks]
      · have hne : (dkey it == k) = false := by
          simp only [beq_eq_false_iff_ne, ne_eq]
          intro he
          exact hks (he ▸ hmem)
        simp [hks, List.filter_cons, hne]
    · rw [if_neg hmem]
      by_cases hk : dkey it = k
      · have hkb : (dkey it == k) = true := by simp [hk]
        have hin : k ∈ dkey it :: seen := by simp [hk]
        have hks : ¬ k ∈ seen := fun hc => hmem (hk ▸ hc)
        simp [List.filter_cons, hkb, ih (dkey it :: seen), hin, hks]
      · have hkb : (dkey it == k) = false := by simp [hk]
        have hiff : (k ∈ dkey it :: seen) ↔ k ∈ seen := by
          constructor
          · intro hc
            rcases List.mem_cons.mp hc with hc1 | hc1
            · exact absurd hc1.symm hk
            · exact hc1
          · exact fun hc => List.mem_cons_of_mem _ hc
        by_cases hks : k ∈ seen
        · simp [List.filter_cons, hkb, ih (dkey it :: seen), hiff, hks]
        · simp [List.filter_cons, hkb, ih (dkey it :: seen), hiff, hks]

theorem dedupeLoop_subset :
    ∀ (l : List Dict) (seen : List DKey) (x : Dict), x ∈ dedupeLoop seen l → x ∈ l := by
  intro l
  induction l with
  | nil => intro seen x h; simp [dedupeLoop] at h
  | cons it rest ih =>
    intro seen x h
    simp only [dedupeLoop] at h
    by_cases hmem : dkey it ∈ seen
    · rw [if_pos hmem] at h
      exact List.mem_cons_of_mem _ (ih seen x h)
    · rw [if_neg hmem] at h
      rcases List.mem_cons.mp h with h1 | h1
      · exact h1 ▸ List.mem_cons_self _ _
      · exact List.mem_cons_of_mem _ (ih _ x h1)

theorem dget_popDoi (k : String) (hk : k ≠ "doi") :
    ∀ d : Dict, dget (popDoi d) k = dget d k := by
  intro d
  induction d with
  | nil => rfl
  | cons a as ih =>
    by_cases ha : a.1 = "doi"
    · have hb : (a.1 == "doi") = true := by simp [ha]
      have hne : (a.1 == k) = false := by
        simp only [beq_eq_false_iff_ne, ne_eq, ha]
        exact fun hc => hk hc.symm
      simp [popDoi, dget, hb, hne]
    · have hb : (a.1 == "doi") = false := by simp [ha]
      by_cases hak : a.1 = k
      · have hp : (a.1 == k) = true := by simp [hak]
        simp [popDoi, dget, hb, hp]
      · have hp : (a.1 == k) = false := by simp [hak]
        simp [popDoi, dget, hb, hp, ih]

theorem popDoi_keys :
    ∀ (d : Dict) (ks : List String), d.map Prod.fst = ks ++ ["doi"] → "doi" ∉ ks →
      (popDoi d).map Prod.fst = ks := by
  intro d
  induction d with
  | nil =>
    intro ks h _
    exact absurd h.symm (List.append_ne_nil_of_right_ne_nil _ (by simp))
  | cons a as ih =>
    intro ks h hks
    cases ks with
    | nil =>
      simp only [List.nil_append, List.map_cons, List.cons.injEq] at h
      obtain ⟨h1, h2⟩ := h
      have has : as = [] := by
        cases as with
        | nil => rfl
        | cons b bs => simp at h2
      subst has
      simp [popDoi, h1]
    | cons k ks2 =>
      simp only [List.cons_append, List.map_cons, List.cons.injEq] at h
      obtain ⟨h1, h2⟩ := h
      have hkd : k ≠ "doi" := fun hc => hks (by simp [hc])
      have hne : a.1 ≠ "doi" := by
        rw [h1]
        exact hkd
      have hb : (a.1 == "doi") = false := by simp [hne]
      have hrec := ih ks2 h2 (fun hc => hks (List.mem_cons_of_mem _ hc))
      simp [popDoi, hb, h1, hrec, hkd]

theorem dget_dset_self (k : String) (v : Val) :
    ∀ d : Dict, dget (dset d k v) k = v := by
  intro d
  induction d with
  | nil => simp [dset, dget]
  | cons a as ih =>
    by_cases ha : a.1 = k
    · simp [dset, dget, ha]
    · simp [dset, dget, ha, ih]

theorem dget_dset_ne (k k2 : String) (v : Val) (hk : k2 ≠ k) :
    ∀ d : Dict, dget (dset d k v) k2 = dget d k2 := by
  intro d
  induction d with
  | nil =>
    have : (k == k2) = false := by
      simp only [beq_eq_false_iff_ne, ne_eq]
      exact fun hc => hk hc.symm
    simp [dset, dget, this]
  | cons a as ih =>
    by_cases ha : a.1 = k
    · have hb : (a.1 == k) = true := by simp [ha]
      have hak : (a.1 == k2) = false := by
        simp only [beq_eq_false_iff_ne, ne_eq, ha]
        exact fun hc => hk hc.symm
      have hkk : (k == k2) = false := by
        simp only [beq_eq_false_iff_ne, ne_eq]
        exact fun hc => hk hc.symm
      simp [dset, dget, hb, hak, hkk]
    · have hb : (a.1 == k) = false := by simp [ha]
      by_cases hak : a.1 = k2
      · have hp : (a.1 == k2) = true := by simp [hak]
        simp [dset, dget, hb, hp]
      · have hp : (a.1 == k2) = false := by simp [hak]
        simp [dset, dget, hb, hp, ih]

theorem dset_keys_of_mem (k : String) (v : Val) :
    ∀ d : Dict, k ∈ d.map Prod.fst → (dset d k v).map Prod.fst = d.map Prod.fst := by
  intro d
  induction d with
  | nil => intro h; simp at h
  | cons a as ih =>
    intro h
    by_cases ha : a.1 = k
    · have hb : (a.1 == k) = true := by simp [ha]
      simp [dset, hb, ha]
    · have hb : (a.1 == k) = false := by simp [ha]
      have hmem : k ∈ as.map Prod.fst := by
        rw [List.map_cons] at h
        rcases List.mem_cons.mp h with h1 | h1
        · exact absurd h1.symm ha
        · exact h1
      simp [dset, hb, ih hmem]


theorem any_key_of_keys (d : Dict) (k : String) (h : k ∈ d.map Prod.fst) :
    d.any (fun p => p.1 == k) = true := by
  rcases List.mem_map.mp h with ⟨p, hp, hpk⟩
  exact List.any_eq_true.mpr ⟨p, hp, by simp [hpk]⟩

/-! ### Dedupe survivor lemma and key predicates -/

theorem dedupe_sort_filter_key (items : List Dict) (k : DKey) (r : Dict)
    (h : items.find? (fun it => dkey it == k) = some r) :
    (dedupe_sort items).filter (fun it => dkey it == k) = [r] := by
  have h1 : (dedupeLoop [] items).filter (fun it => dkey it == k)
      = (items.filter (fun it => dkey it == k)).take 1 := by
    simpa using dedupeLoop_filter k items []
  have h2 : (items.filter (fun it => dkey it == k)).take 1 = [r] :=
    take_one_filter_of_find _ items r h
  have hperm : List.Perm ((dedupe_sort items).filter (fun it => dkey it == k))
      ((dedupeLoop [] items).filter (fun it => dkey it == k)) :=
    (dedupe_sort_perm items).filter _
  rw [h1, h2] at hperm
  exact List.perm_singleton.mp hperm

theorem doiK_pred_eq (d : String) (hd : d ≠ "") (it : Dict) :
    (decide (doiNorm it = d)) = (dkey it == DKey.doiK d) := by
  unfold dkey
  by_cases hn : doiNorm it ≠ ""
  · rw [if_pos hn]
    by_cases hi : doiNorm it = d
    · simp [hi]
    · simp [hi]
  · rw [if_neg hn]
    push_neg at hn
    have hne : doiNorm it ≠ d := by
      rw [hn]
      exact fun hc => hd hc.symm
    simp [hne]

theorem tyK_pred_eq (t y : String) (it : Dict) :
    (decide (doiNorm it = "") && decide (tyNormKey it = (t, y))) = (dkey it == DKey.tyK t y) := by
  unfold dkey
  by_cases hn : doiNorm it ≠ ""
  · rw [if_pos hn]
    simp [hn]
  · rw [if_neg hn]
    push_neg at hn
    rw [Bool.eq_iff_iff]
    simp [Prod.ext_iff, hn]

/-! ### Claim theorems -/

/-- Claim C1, as stated, is false on the code: `dedupe_sort` sorts with
`reverse=True` applied to the whole `(year, title)` key, so records with equal
years come out with titles in case-insensitively descending order, not
ascending.  On the two DOI-less records with year 2020 and titles `"a"`, `"b"`
the output is `[b-record, a-record]`, an adjacent pair with equal years whose
earlier title `"b"` is not less than or equal to the later title `"a"`. -/
theorem c1_counterexample :
    ¬ List.Chain'
        (fun r1 r2 =>
          safe_int (dget r2 "year") ≤ safe_int (dget r1 "year") ∧
          (safe_int (dget r1 "year") = safe_int (dget r2 "year") →
            strLe (pyLower (asStr (dget r1 "title"))) (pyLower (asStr (dget r2 "title"))) = true))
        (dedupe_sort [recA2020, recB2020]) := by
  intro h
  have he : dedupe_sort [recA2020, recB2020] = [recB2020, recA2020] := by decide
  rw [he] at h
  have hr := (List.chain'_cons.mp h).1
  have hy : safe_int (dget recB2020 "year") = safe_int (dget recA2020 "year") := by decide
  have ht := hr.2 hy
  exact absurd ht (by decide)

/-- Claim C1 (amended): for every adjacent pair of `dedupe_sort` output
records, the earlier year (via `safe_int`, 0 on failure) is greater than or
equal to the later year, and on equal years the earlier lower-cased title is
greater than or equal to the later one (titles descend, because `reverse=True`
reverses the whole tuple comparison). -/
theorem c1_sort_invariant (items : List Dict) :
    List.Chain'
      (fun r1 r2 =>
        safe_int (dget r2 "year") ≤ safe_int (dget r1 "year") ∧
        (safe_int (dget r1 "year") = safe_int (dget r2 "year") →
          strLe (pyLower (asStr (dget r2 "title"))) (pyLower (asStr (dget r1 "title"))) = true))
      (dedupe_sort items) := by
  have hs : List.Sorted sortGE (dedupe_sort items) := dedupe_sort_sorted items
  have hc : List.Chain' sortGE (dedupe_sort items) := List.Pairwise.chain' hs
  refine hc.imp ?_
  intro r1 r2 h
  simp only [sortGE, keyLeB, sortKey] at h
  split_ifs at h with h1 h2
  · constructor
    · exact le_of_lt h1
    · intro heq
      omega
  · constructor
    · exact le_of_eq h2
    · intro _
      exact h

/-- Claim C5: for every input list, among the records sharing one non-empty
normalized DOI exactly the first such record (in input order) survives
`dedupe_sort`, and among the DOI-less records sharing one normalized
lower-cased `(title, year)` key exactly the first such record survives. -/
theorem c5_dedup_first_survivor (items : List Dict) :
    (∀ d r, d ≠ "" →
        items.find? (fun it => decide (doiNorm it = d)) = some r →
        (dedupe_sort items).filter (fun it => decide (doiNorm it = d)) = [r]) ∧
    (∀ t y r,
        items.find? (fun it => decide (doiNorm it = "") && decide (tyNormKey it = (t, y))) = some r →
        (dedupe_sort items).filter
            (fun it => decide (doiNorm it = "") && decide (tyNormKey it = (t, y))) = [r]) := by
  constructor
  · intro d r hd hf
    have hfun : (fun it => decide (doiNorm it = d)) = (fun it => dkey it == DKey.doiK d) :=
      funext (doiK_pred_eq d hd)
    rw [hfun] at hf ⊢
    exact dedupe_sort_filter_key items _ r hf
  · intro t y r hf
    have hfun : (fun it => decide (doiNorm it = "") && decide (tyNormKey it = (t, y)))
        = (fun it => dkey it == DKey.tyK t y) :=
      funext (tyK_pred_eq t y)
    rw [hfun] at hf ⊢
    exact dedupe_sort_filter_key items _ r hf

/-- Witness for C5: two records with DOI `10.1/a` keep only the first
(`srcA`); two identical DOI-less records keep only the first occurrence. -/
theorem c5_witness :
    (dedupe_sort [srcA, srcB]).filter (fun it => decide (doiNorm it = "10.1/a")) = [srcA] ∧
    (dedupe_sort [recA2020, recB2020, recA2020]).filter
        (fun it => decide (doiNorm it = "") && decide (tyNormKey it = ("a", "2020"))) = [recA2020] :=
  ⟨(c5_dedup_first_survivor [srcA, srcB]).1 "10.1/a" srcA (by decide) (by decide),
   (c5_dedup_first_survivor [recA2020, recB2020, recA2020]).2 "a" "2020" recA2020 (by decide)⟩

theorem orEmptyDict_some (a : Dict) : orEmptyDict (some a) = a := by
  cases a <;> rfl

theorem merge_records_eq_build (oa cr : Option Dict) (m : Dict)
    (h : merge_records oa cr = some m) :
    m = mergeBuild (orEmptyDict oa) (orEmptyDict cr) := by
  unfold merge_records at h
  by_cases hc : (!optTruthy oa && !optTruthy cr) = true
  · rw [if_pos hc] at h
    cases h
  · rw [if_neg hc] at h
    injection h with h2
    exact h2.symm

/-- Claim C2: `merge_records` takes, for every field except `cited_by`, the
first truthy (non-empty) value in priority order — OpenAlex before Crossref,
with `""` as the final fallback — and takes the maximum of the two
`safe_int`-coerced citation counts; on the spec scenario (`srcA`: year 2020,
5 citations; `srcB`: year 2021, 12 citations, same DOI) the merged record has
year 2020 and `cited_by` 12. -/
theorem c2_merge_records (a b m : Dict)
    (hm : merge_records (some a) (some b) = some m) :
    (∀ f, f ∈ ["title", "authors", "year", "venue", "url", "eprint_url", "source", "doi"] →
        dget m f = pyOr (dget a f) (pyOr (dget b f) (.vstr ""))) ∧
    dget m "cited_by" = .vint (max (safe_int (dget a "cited_by")) (safe_int (dget b "cited_by"))) ∧
    (dget mergedAB "year" = .vint 2020 ∧ dget mergedAB "cited_by" = .vint 12) := by
  have hm2 : m = mergeBuild a b := by
    have := merge_records_eq_build (some a) (some b) m hm
    rwa [orEmptyDict_some, orEmptyDict_some] at this
  subst hm2
  refine ⟨?_, rfl, by decide, by decide⟩
  intro f hf
  fin_cases hf <;> rfl

/-- Witness for C2 at the spec scenario records. -/
theorem c2_witness :
    dget mergedAB "year" = .vint 2020 ∧ dget mergedAB "cited_by" = .vint 12 :=
  (c2_merge_records srcA srcB mergedAB (by decide)).2.2

/-- Claim C3: the `__main__` guard of fetch_scholar.py always exits with
status 0, and when an unhandled exception escapes `main` the artifact written
is exactly the valid JSON text `[]` (an empty array), not a missing file. -/
theorem c3_failsafe :
    (∀ r : Except Unit (List Dict), (topLevel r).2 = 0) ∧
    topLevel (.error ()) = ("[]", 0) := by
  constructor
  · intro r
    cases r <;> rfl
  · rfl

/-- Claim C4, as stated, is false on the code: the artifact's `year` field is
the raw merged value, which for a work whose OpenAlex record lacks
`publication_year` is the string `""` — not an integer and not `0` — so the
written record for `oaRec0` refutes "year is always an integer". -/
theorem c4_counterexample :
    ¬ ∀ r, r ∈ runPipeline [(some oaRec0, none, none)] →
        ∃ n : Int, dget r "year" = .vint n := by
  intro h
  rcases h (popDoi oaRec0) (by decide) with ⟨n, hn⟩
  have hv : dget (popDoi oaRec0) "year" = .vstr "" := by decide
  rw [hv] at hn
  exact Val.noConfusion hn

/-- Claim C4 (amended): parsing a malformed year never raises — `safe_int`
returns the fallback 0 whenever the parse fails (it is total); a merged
record's `year` is never `None`; but the written artifact keeps the raw
merged year value of the surviving input record unchanged (an integer or a
string, `""` when unknown), with the integer coercion applied only inside the
sort key. -/
theorem c4_year_policy :
    (∀ v : Val, parseIntStr (pyStr v) = none → safe_int v = 0) ∧
    (∀ oa cr m, merge_records oa cr = some m → dget m "year" ≠ .vnone) ∧
    (∀ items r, r ∈ write_output items → ∃ r0, r0 ∈ items ∧ dget r "year" = dget r0 "year") := by
  refine ⟨?_, ?_, ?_⟩
  · intro v hv
    simp [safe_int, hv]
  · intro oa cr m hm
    rw [merge_records_eq_build oa cr m hm]
    show pyOr _ (pyOr _ (.vstr "")) ≠ .vnone
    unfold pyOr
    split
    · intro hc
      simp [hc, truthy] at *
    · split
      · intro hc
        simp [hc, truthy] at *
      · intro hc
        cases hc
  · intro items r hr
    rcases List.mem_map.mp hr with ⟨r1, hr1, hpop⟩
    have hmem1 : r1 ∈ dedupeLoop [] items := (dedupe_sort_perm items).mem_iff.mp hr1
    have hmem2 : r1 ∈ items := dedupeLoop_subset items [] r1 hmem1
    refine ⟨r1, hmem2, ?_⟩
    rw [← hpop]
    exact dget_popDoi "year" (by decide) r1

/-- Witness for C4 (amended): a malformed year coerces to 0; the scenario
merge has a non-`None` year; the record surviving `write_output [oaRec0]`
keeps `oaRec0`'s raw year. -/
theorem c4_witness :
    safe_int (.vstr "n/a") = 0 ∧
    dget mergedAB "year" ≠ .vnone ∧
    ∃ r0, r0 ∈ [oaRec0] ∧ dget (popDoi oaRec0) "year" = dget r0 "year" :=
  ⟨c4_year_policy.1 (.vstr "n/a") (by decide),
   c4_year_policy.2.1 (some srcA) (some srcB) mergedAB (by decide),
   c4_year_policy.2.2 [oaRec0] (popDoi oaRec0) (by decide)⟩

theorem filterMap_if_eq_map_filter {α β : Type} (c : α → Bool) (f : α → β) :
    ∀ l : List α,
      l.filterMap (fun x => if c x then some (f x) else none) = (l.filter c).map f := by
  intro l
  induction l with
  | nil => rfl
  | cons a as ih =>
    by_cases h : c a = true
    · simp [List.filterMap_cons, List.filter_cons, h, ih]
    · simp [List.filterMap_cons, List.filter_cons, h, ih]

/-- Claim C8: `fetch_papers_for_author` emits exactly the papers passing the
strict identity filter, in order; a paper is kept iff the target authorId
occurs (as a truthy value) among its authors' `authorId`s, so papers without
the exact target id contribute nothing. -/
theorem c8_identity_filter (author_id : String) (papers : List S2Paper) :
    fetch_papers_for_author author_id papers =
      (papers.filter (keepPaper author_id)).map mkS2Item ∧
    (∀ p : S2Paper, keepPaper author_id p = true ↔
        ∃ a, a ∈ p.authors ∧ truthy (dget a "authorId") = true ∧
          dget a "authorId" = .vstr author_id) := by
  constructor
  · exact filterMap_if_eq_map_filter _ _ papers
  · intro p
    simp [keepPaper, List.any_eq_true, and_assoc]

/-- Claim C9: processing any non-empty Crossref page in
`fetch_crossref_by_orcid` raises the `NameError` for the unbound name `ws`
while building the first record, so the page contributes no records. -/
theorem c9_nameerror (recs : List XrefItem) (h : recs ≠ []) :
    fetch_crossref_page recs = .error "NameError: name ws is not defined" := by
  cases recs with
  | nil => exact absurd rfl h
  | cons it rest => rfl

/-- Witness for C9 on a concrete one-item page. -/
theorem c9_witness :
    fetch_crossref_page [xrefItem0] = .error "NameError: name ws is not defined" :=
  c9_nameerror [xrefItem0] (by decide)

/-- Claim C10: in the ORCID variant's `main`, the ORCID public fallback is
queried exactly when the Crossref stage accumulated fewer than 5 records. -/
theorem c10_fallback_iff (crossref orcidPub : Except Unit (List Dict)) :
    (orcid_main crossref orcidPub).2 = true ↔ (exceptItems crossref).length < 5 := by
  unfold orcid_main
  by_cases h : (exceptItems crossref).length < 5
  · simp [h]
  · simp [h]

/-! ### Field-set lemmas for the written artifact -/

/-- The eight public fields of the artifact schema. -/
def fields8 : List String :=
  ["title", "authors", "year", "venue", "url", "eprint_url", "cited_by", "source"]

/-- The nine keys of a merged record before `doi` is popped. -/
def fields9 : List String :=
  fields8 ++ ["doi"]

theorem mergeBuild_keys (a b : Dict) : (mergeBuild a b).map Prod.fst = fields9 := rfl

theorem yearFill_keys (er : EpmcRec) (item : Dict) (h : item.map Prod.fst = fields9) :
    (yearFill item er).map Prod.fst = fields9 := by
  have hy : "year" ∈ item.map Prod.fst := by
    rw [h]
    decide
  unfold yearFill
  split
  · split_ifs
    · exact (dset_keys_of_mem "year" _ item hy).trans h
    · exact (dset_keys_of_mem "year" _ item hy).trans h
    · exact h
  · split_ifs
    · exact (dset_keys_of_mem "year" _ item hy).trans h
    · exact h

theorem eprintFill_keys (er : EpmcRec) (item : Dict) (h : item.map Prod.fst = fields9) :
    (eprintFill item er).map Prod.fst = fields9 := by
  have he : "eprint_url" ∈ item.map Prod.fst := by
    rw [h]
    decide
  unfold eprintFill
  split_ifs
  · exact (dset_keys_of_mem "eprint_url" _ item he).trans h
  · split
    · exact (dset_keys_of_mem "eprint_url" _ item he).trans h
    · exact h

theorem enrichAuthors_keys (er : EpmcRec) (item : Dict) (h : item.map Prod.fst = fields9) :
    (enrichAuthors item er).map Prod.fst = fields9 := by
  unfold enrichAuthors
  split_ifs
  · exact (dset_keys_of_mem "authors" _ item (by rw [h]; decide)).trans h
  · exact h

theorem enrichVenue_keys (er : EpmcRec) (item : Dict) (h : item.map Prod.fst = fields9) :
    (enrichVenue item er).map Prod.fst = fields9 := by
  unfold enrichVenue
  split_ifs
  · exact (dset_keys_of_mem "venue" _ item (by rw [h]; decide)).trans h
  · exact h

theorem enrichYear_keys (er : EpmcRec) (item : Dict) (h : item.map Prod.fst = fields9) :
    (enrichYear item er).map Prod.fst = fields9 := by
  unfold enrichYear
  split_ifs
  · exact yearFill_keys er item h
  · exact h

theorem enrichEprint_keys (er : EpmcRec) (item : Dict) (h : item.map Prod.fst = fields9) :
    (enrichEprint item er).map Prod.fst = fields9 := by
  unfold enrichEprint
  split_ifs
  · exact eprintFill_keys er item h
  · exact h

theorem enrich_epmc_keys (item : Dict) (er? : Option EpmcRec)
    (h : item.map Prod.fst = fields9) :
    (enrich_epmc item er?).map Prod.fst = fields9 := by
  unfold enrich_epmc
  split
  · exact h
  · cases er? with
    | none => exact h
    | some er =>
      exact enrichEprint_keys er _ (enrichYear_keys er _ (enrichVenue_keys er _
        (enrichAuthors_keys er item h)))

/-- Claim C6: every record in the written artifact of the fetch_scholar.py
pipeline carries exactly the eight public fields, in schema order, and no
`doi` key — the internal `doi` entry is popped by `write_output`. -/
theorem c6_artifact_fields (fetched : List (Option Dict × Option Dict × Option EpmcRec))
    (r : Dict) (hr : r ∈ runPipeline fetched) :
    r.map Prod.fst = fields8 ∧ "doi" ∉ r.map Prod.fst := by
  rcases List.mem_map.mp hr with ⟨r1, hr1, hpop⟩
  have hmem1 : r1 ∈ dedupeLoop []
      (fetched.filterMap (fun t => (merge_records t.1 t.2.1).map (fun m => enrich_epmc m t.2.2))) :=
    (dedupe_sort_perm _).mem_iff.mp hr1
  have hmem2 := dedupeLoop_subset _ [] r1 hmem1
  rcases List.mem_filterMap.mp hmem2 with ⟨t, ht, hbuild⟩
  rcases Option.map_eq_some'.mp hbuild with ⟨m, hm, henr⟩
  have hk9m : m.map Prod.fst = fields9 := by
    rw [merge_records_eq_build t.1 t.2.1 m hm]
    rfl
  have hk9 : r1.map Prod.fst = fields9 := by
    rw [← henr]
    exact enrich_epmc_keys m t.2.2 hk9m
  have h8 : (popDoi r1).map Prod.fst = fields8 :=
    popDoi_keys r1 fields8 (by rw [hk9]; rfl) (by decide)
  constructor
  · rw [← hpop]
    exact h8
  · rw [← hpop, h8]
    decide

/-- Witness for C6: the pipeline run on the single OpenAlex record `oaRec0`
writes one object with exactly the eight public fields and no `doi`. -/
theorem c6_witness :
    (popDoi oaRec0).map Prod.fst = fields8 ∧ "doi" ∉ (popDoi oaRec0).map Prod.fst :=
  c6_artifact_fields [(some oaRec0, none, none)] (popDoi oaRec0) (by decide)

/-! ### Frame lemmas for the Europe PMC enrichment -/

theorem enrichAuthors_dget_ne (er : EpmcRec) (item : Dict) (f : String)
    (hf : f ≠ "authors") : dget (enrichAuthors item er) f = dget item f := by
  unfold enrichAuthors
  split_ifs
  · exact dget_dset_ne "authors" f _ hf item
  · rfl

theorem enrichVenue_dget_ne (er : EpmcRec) (item : Dict) (f : String)
    (hf : f ≠ "venue") : dget (enrichVenue item er) f = dget item f := by
  unfold enrichVenue
  split_ifs
  · exact dget_dset_ne "venue" f _ hf item
  · rfl

theorem yearFill_dget_ne (er : EpmcRec) (item : Dict) (f : String)
    (hf : f ≠ "year") : dget (yearFill item er) f = dget item f := by
  unfold yearFill
  split
  · split_ifs
    · exact dget_dset_ne "year" f _ hf item
    · exact dget_dset_ne "year" f _ hf item
    · rfl
  · split_ifs
    · exact dget_dset_ne "year" f _ hf item
    · rfl

theorem eprintFill_dget_ne (er : EpmcRec) (item : Dict) (f : String)
    (hf : f ≠ "eprint_url") : dget (eprintFill item er) f = dget item f := by
  unfold eprintFill
  split_ifs
  · exact dget_dset_ne "eprint_url" f _ hf item
  · split
    · exact dget_dset_ne "eprint_url" f _ hf item
    · rfl

theorem enrichYear_dget_ne (er : EpmcRec) (item : Dict) (f : String)
    (hf : f ≠ "year") : dget (enrichYear item er) f = dget item f := by
  unfold enrichYear
  split_ifs
  · exact yearFill_dget_ne er item f hf
  · rfl

theorem enrichEprint_dget_ne (er : EpmcRec) (item : Dict) (f : String)
    (hf : f ≠ "eprint_url") : dget (enrichEprint item er) f = dget item f := by
  unfold enrichEprint
  split_ifs
  · exact eprintFill_dget_ne er item f hf
  · rfl

theorem enrichAuthors_self_truthy (er : EpmcRec) (item : Dict)
    (h : truthy (dget item "authors") = true) : enrichAuthors item er = item := by
  unfold enrichAuthors
  rw [h]
  simp

theorem enrichVenue_self_truthy (er : EpmcRec) (item : Dict)
    (h : truthy (dget item "venue") = true) : enrichVenue item er = item := by
  unfold enrichVenue
  rw [h]
  simp

theorem enrichYear_self_truthy (er : EpmcRec) (item : Dict)
    (h : truthy (dget item "year") = true) : enrichYear item er = item := by
  unfold enrichYear
  rw [h]
  simp

theorem enrichEprint_self_truthy (er : EpmcRec) (item : Dict)
    (h : truthy (dget item "eprint_url") = true) : enrichEprint item er = item := by
  unfold enrichEprint
  rw [h]
  simp

/-- Claim C7 fails as stated: `enrich_epmc` also fills the `year` gap (its
own docstring says so), so on `recNoYear` — whose `year` is the empty string
— the enrichment changes a field outside {authors, venue, eprint_url}. -/
theorem c7_counterexample :
    ¬ ∀ f, f ∉ ["authors", "venue", "eprint_url"] →
        dget (enrich_epmc recNoYear (some epmcR0)) f = dget recNoYear f := by
  intro h
  have h1 := h "year" (by decide)
  have h2 : dget (enrich_epmc recNoYear (some epmcR0)) "year" = .vstr "2019" := by decide
  have h3 : dget recNoYear "year" = .vstr "" := by decide
  rw [h2, h3] at h1
  exact absurd h1 (by decide)

/-- Claim C7 (amended): `enrich_epmc` only ever modifies the four fields
authors, venue, year and `eprint_url` (year included, unlike the spec's
list), and it never overwrites a field whose current value is truthy
(non-empty). -/
theorem c7_enrich_frame (item : Dict) (er? : Option EpmcRec) :
    (∀ f, f ∉ ["authors", "venue", "year", "eprint_url"] →
        dget (enrich_epmc item er?) f = dget item f) ∧
    (∀ f, truthy (dget item f) = true → dget (enrich_epmc item er?) f = dget item f) := by
  constructor
  · intro f hf
    have h1 : f ≠ "authors" := fun hc => hf (by rw [hc]; decide)
    have h2 : f ≠ "venue" := fun hc => hf (by rw [hc]; decide)
    have h3 : f ≠ "year" := fun hc => hf (by rw [hc]; decide)
    have h4 : f ≠ "eprint_url" := fun hc => hf (by rw [hc]; decide)
    unfold enrich_epmc
    split
    · rfl
    · cases er? with
      | none => rfl
      | some er =>
        rw [enrichEprint_dget_ne er _ f h4, enrichYear_dget_ne er _ f h3,
          enrichVenue_dget_ne er _ f h2, enrichAuthors_dget_ne er _ f h1]
  · intro f hf
    unfold enrich_epmc
    split
    · rfl
    · cases er? with
      | none => rfl
      | some er =>
        by_cases h1 : f = "authors"
        · subst h1
          rw [enrichEprint_dget_ne er _ _ (by decide), enrichYear_dget_ne er _ _ (by decide),
            enrichVenue_dget_ne er _ _ (by decide), enrichAuthors_self_truthy er item hf]
        · by_cases h2 : f = "venue"
          · subst h2
            have hA : dget (enrichAuthors item er) "venue" = dget item "venue" :=
              enrichAuthors_dget_ne er item "venue" (by decide)
            rw [enrichEprint_dget_ne er _ _ (by decide), enrichYear_dget_ne er _ _ (by decide),
              enrichVenue_self_truthy er _ (by rw [hA]; exact hf), hA]
          · by_cases h3 : f = "year"
            · subst h3
              have hA : dget (enrichAuthors item er) "year" = dget item "year" :=
                enrichAuthors_dget_ne er item "year" (by decide)
              have hV : dget (enrichVenue (enrichAuthors item er) er) "year"
                  = dget item "year" := by
                rw [enrichVenue_dget_ne er _ _ (by decide), hA]
              rw [enrichEprint_dget_ne er _ _ (by decide),
                enrichYear_self_truthy er _ (by rw [hV]; exact hf), hV]
            · by_cases h4 : f = "eprint_url"
              · subst h4
                have hA : dget (enrichAuthors item er) "eprint_url"
                    = dget item "eprint_url" :=
                  enrichAuthors_dget_ne er item "eprint_url" (by decide)
                have hV : dget (enrichVenue (enrichAuthors item er) er) "eprint_url"
                    = dget item "eprint_url" := by
                  rw [enrichVenue_dget_ne er _ _ (by decide), hA]
                have hY : dget (enrichYear (enrichVenue (enrichAuthors item er) er) er)
                    "eprint_url" = dget item "eprint_url" := by
                  rw [enrichYear_dget_ne er _ _ (by decide), hV]
                have hself : enrichEprint (enrichYear (enrichVenue (enrichAuthors item er) er) er) er
                    = enrichYear (enrichVenue (enrichAuthors item er) er) er :=
                  enrichEprint_self_truthy er _ (by rw [hY]; exact hf)
                exact (congrArg (fun d => dget d "eprint_url") hself).trans hY
              · rw [enrichEprint_dget_ne er _ _ h4, enrichYear_dget_ne er _ _ h3,
                  enrichVenue_dget_ne er _ _ h2, enrichAuthors_dget_ne er _ _ h1]

/-- Witness for C7 (amended): on `recNoYear` the enrichment leaves `title`
(outside the four fields) and the already-truthy `venue` unchanged. -/
theorem c7_witness :
    dget (enrich_epmc recNoYear (some epmcR0)) "title" = dget recNoYear "title" ∧
    dget (enrich_epmc recNoYear (some epmcR0)) "venue" = dget recNoYear "venue" :=
  ⟨(c7_enrich_frame recNoYear (some epmcR0)).1 "title" (by decide),
   (c7_enrich_frame recNoYear (some epmcR0)).2 "venue" (by decide)⟩

end Scholar
